import Mathlib

/-!
Shallow embedding of the Cannon MIPS64 multithreaded VM state codec
(package multithreaded: state-witness encoding, thread serialization and
hash-onion thread-stack roots), the tracking preimage-oracle reader
(package exec) and the ELF program loader (package program).

Bytes are modelled as natural numbers below 256, and machine words as
natural numbers reduced mod 2^64 exactly where the Go code relies on
fixed-width arithmetic.  Fallible or panicking operations are modelled
with Option/Except.  The Keccak-256 function used by the codec comes
from an external crypto library; it is embedded here in full (sponge with
rate 136, multi-rate padding, 24-round permutation) so that the committed
constants can be checked by evaluation.
-/

set_option maxRecDepth 1000000

/-- Big-endian encoding of the low 64 bits of a natural number as 8 bytes
(the embedding of binary.BigEndian.AppendUint64). -/
def be64 (x : Nat) : List Nat :=
  [x / 2 ^ 56 % 256, x / 2 ^ 48 % 256, x / 2 ^ 40 % 256, x / 2 ^ 32 % 256,
   x / 2 ^ 24 % 256, x / 2 ^ 16 % 256, x / 2 ^ 8 % 256, x % 256]

/-- Big-endian interpretation of a byte list as a natural number. -/
def beToNat (bs : List Nat) : Nat := bs.foldl (fun acc b => acc * 256 + b) 0

/-- Byte encoding of a boolean flag.  Modelled from the spec:
run.AppendBoolToWitness is outside the provided sources; the spec fixes
the encoding (for example exited as 0/1). -/
def boolByte (b : Bool) : Nat := if b then 1 else 0

/-- Left rotation of a 64-bit lane. -/
def rotl64 (x n : Nat) : Nat := ((x <<< n) ||| (x >>> (64 - n))) % 2 ^ 64

/-- Round constants of the Keccak-f[1600] permutation, three per row. -/
def keccakRCRows : List (List Nat) :=
  [[0x0000000000000001, 0x0000000000008082, 0x800000000000808A],
   [0x8000000080008000, 0x000000000000808B, 0x0000000080000001],
   [0x8000000080008081, 0x8000000000008009, 0x000000000000008A],
   [0x0000000000000088, 0x0000000080008009, 0x000000008000000A],
   [0x000000008000808B, 0x800000000000008B, 0x8000000000008089],
   [0x8000000000008003, 0x8000000000008002, 0x8000000000000080],
   [0x000000000000800A, 0x800000008000000A, 0x8000000080008081],
   [0x8000000000008080, 0x0000000080000001, 0x8000000080008008]]

/-- The 24 round constants in round order. -/
def keccakRC : List Nat := keccakRCRows.flatten

/-- Rotation offsets of the rho step, row y of the table holding the
offsets of lanes 5 * y through 5 * y + 4. -/
def rhoOffsetRows : List (List Nat) :=
  [[0, 1, 62, 28, 27],
   [36, 44, 6, 55, 20],
   [3, 10, 43, 25, 39],
   [41, 45, 15, 21, 8],
   [18, 2, 61, 56, 14]]

/-- Rotation offsets indexed by lane x + 5 * y. -/
def rhoOffsets : List Nat := rhoOffsetRows.flatten

/-- Theta step of Keccak-f: XOR every lane with the parity of two columns. -/
def thetaStep (A : List Nat) : List Nat :=
  let C := (List.range 5).map fun x =>
    ((((A.getD x 0) ^^^ (A.getD (x + 5) 0)) ^^^ (A.getD (x + 10) 0)) ^^^
      (A.getD (x + 15) 0)) ^^^ (A.getD (x + 20) 0)
  let D := (List.range 5).map fun x =>
    (C.getD ((x + 4) % 5) 0) ^^^ rotl64 (C.getD ((x + 1) % 5) 0) 1
  (List.range 25).map fun i => (A.getD i 0) ^^^ (D.getD (i % 5) 0)

/-- Combined rho and pi steps: rotate every lane and permute the lane grid. -/
def rhoPiStep (A : List Nat) : List Nat :=
  (List.range 25).map fun i =>
    let X := i % 5
    let Y := i / 5
    let src := (X + 3 * Y) % 5 + 5 * X
    rotl64 (A.getD src 0) (rhoOffsets.getD src 0)

/-- Chi step of Keccak-f: nonlinear row mixing. -/
def chiStep (A : List Nat) : List Nat :=
  (List.range 25).map fun i =>
    let x := i % 5
    let y := i / 5
    (A.getD i 0) ^^^
      ((0xFFFFFFFFFFFFFFFF ^^^ (A.getD ((x + 1) % 5 + 5 * y) 0)) &&&
        (A.getD ((x + 2) % 5 + 5 * y) 0))

/-- One round of Keccak-f[1600]: theta, rho, pi, chi, then iota. -/
def keccakRound (A : List Nat) (rc : Nat) : List Nat :=
  match chiStep (rhoPiStep (thetaStep A)) with
  | [] => []
  | b0 :: rest => (b0 ^^^ rc) :: rest

/-- The full 24-round Keccak-f[1600] permutation. -/
def keccakF (A : List Nat) : List Nat := keccakRC.foldl keccakRound A

/-- Little-endian interpretation of up to 8 bytes as one 64-bit lane. -/
def bytesToLane (bs : List Nat) : Nat := bs.foldr (fun b acc => acc * 256 + b) 0

/-- Absorb one 136-byte block into the sponge state and permute. -/
def absorbBlock (A block : List Nat) : List Nat :=
  keccakF ((List.range 25).map fun i =>
    (A.getD i 0) ^^^ (if i < 17 then bytesToLane ((block.drop (8 * i)).take 8) else 0))

/-- Absorb a given number of 136-byte blocks of the padded message. -/
def absorbBlocks : Nat → List Nat → List Nat → List Nat
  | 0, A, _ => A
  | n + 1, A, m => absorbBlocks n (absorbBlock A (m.take 136)) (m.drop 136)

/-- Multi-rate padding of Keccak: append 0x01, zeros, and a final 0x80
(0x81 when a single padding byte remains). -/
def keccakPad (m : List Nat) : List Nat :=
  let q := 136 - m.length % 136
  if q = 1 then m ++ [0x81] else m ++ [0x01] ++ List.replicate (q - 2) 0 ++ [0x80]

/-- Little-endian byte extraction of one 64-bit lane. -/
def le64 (x : Nat) : List Nat :=
  [x % 256, x / 2 ^ 8 % 256, x / 2 ^ 16 % 256, x / 2 ^ 24 % 256,
   x / 2 ^ 32 % 256, x / 2 ^ 40 % 256, x / 2 ^ 48 % 256, x / 2 ^ 56 % 256]

/-- Keccak-256 of a byte list: pad, absorb, and squeeze the first 32 bytes.
This is the hash behind crypto.Keccak256Hash in the sources. -/
def keccak256 (m : List Nat) : List Nat :=
  let p := keccakPad m
  let A := absorbBlocks (p.length / 136) (List.replicate 25 0) p
  le64 (A.getD 0 0) ++ le64 (A.getD 1 0) ++ le64 (A.getD 2 0) ++ le64 (A.getD 3 0)

/-- Status byte of the VM.  Modelled from the spec: package vmstatus is
outside the provided sources; the spec says a status byte is derived from
(exited, exit_code) so the verifier can cheaply reject finalized states.
We use the Cannon mapping: 0 valid, 1 invalid, 2 panic when exited, and
3 unfinished otherwise.  None of the settled claims depends on the exact
table, only on both sides deriving the byte with this same function. -/
def VmStatus (exited : Bool) (exitCode : Nat) : Nat :=
  if exited then
    match exitCode with
    | 0 => 0
    | 1 => 1
    | _ => 2
  else 3

/-- CPU scalar registers of one thread (mipsevm64.CpuScalars). -/
structure CpuScalars where
  PC : Nat
  NextPC : Nat
  LO : Nat
  HI : Nat
deriving DecidableEq

/-- One scheduled thread (multithreaded.ThreadState).  The 32 general
purpose registers are a list with well-formedness length 32. -/
structure ThreadState where
  threadId : Nat
  exitCode : Nat
  exited : Bool
  futexAddr : Nat
  futexVal : Nat
  futexTimeoutStep : Nat
  cpu : CpuScalars
  registers : List Nat
deriving DecidableEq

/-- SERIALIZED_THREAD_SIZE from the sources. -/
def SERIALIZED_THREAD_SIZE : Nat := 322

/-- THREAD_WITNESS_SIZE from the sources: a serialized thread plus a
32-byte hash-onion root. -/
def THREAD_WITNESS_SIZE : Nat := SERIALIZED_THREAD_SIZE + 32

/-- Big-endian serialization of one thread (ThreadState.serializeThread). -/
def serializeThread (t : ThreadState) : List Nat :=
  be64 t.threadId ++ [t.exitCode] ++ [boolByte t.exited] ++
  be64 t.futexAddr ++ be64 t.futexVal ++ be64 t.futexTimeoutStep ++
  be64 t.cpu.PC ++ be64 t.cpu.NextPC ++ be64 t.cpu.LO ++ be64 t.cpu.HI ++
  (t.registers.map be64).flatten

/-- The EmptyThreadsRoot constant of the sources, the 32 bytes of
0xad3228b676f7d3cd4284a5443f17f1962b36e491b30a40b2405849e597ba5fb5. -/
def EmptyThreadsRoot : List Nat :=
  [0xad, 0x32, 0x28, 0xb6, 0x76, 0xf7, 0xd3, 0xcd, 0x42, 0x84, 0xa5, 0x44, 0x3f, 0x17, 0xf1, 0x96,
   0x2b, 0x36, 0xe4, 0x91, 0xb3, 0x0a, 0x40, 0xb2, 0x40, 0x58, 0x49, 0xe5, 0x97, 0xba, 0x5f, 0xb5]

/-- One step of the thread-stack hash onion (computeThreadRoot):
hash the serialized thread, then hash the previous root with it. -/
def computeThreadRoot (prevStackRoot : List Nat) (threadToPush : ThreadState) : List Nat :=
  keccak256 (prevStackRoot ++ keccak256 (serializeThread threadToPush))

/-- Hash-onion root of a whole thread stack, bottom of the stack first
(State.calculateThreadStackRoot). -/
def calculateThreadStackRoot (stack : List ThreadState) : List Nat :=
  stack.foldl computeThreadRoot EmptyThreadsRoot

/-- STATE_WITNESS_SIZE from the sources. -/
def STATE_WITNESS_SIZE : Nat := 179

/-- Witness offset constants from the sources. -/
def EXITCODE_WITNESS_OFFSET : Nat := 80

/-- Witness offset of the exited flag. -/
def EXITED_WITNESS_OFFSET : Nat := 81

/-- The multithreaded VM state (multithreaded.State).  The memory is
outside the provided sources and only its Merkle root enters the codec,
so it is abstracted here by the 32-byte root that Memory.MerkleRoot()
would return.  LastHint is metadata outside the witnessed state and is
omitted. -/
structure State where
  memRoot : List Nat
  preimageKey : List Nat
  preimageOffset : Nat
  heap : Nat
  exitCode : Nat
  exited : Bool
  step : Nat
  stepsSinceLastContextSwitch : Nat
  wakeup : Nat
  traverseRight : Bool
  leftThreadStack : List ThreadState
  rightThreadStack : List ThreadState
  nextThreadId : Nat
deriving DecidableEq

/-- The stack the scheduler is currently traversing. -/
def State.getActiveThreadStack (s : State) : List ThreadState :=
  if s.traverseRight then s.rightThreadStack else s.leftThreadStack

/-- Top of the active stack.  The Go method panics when the active stack
is empty; the panic is modelled as none. -/
def State.getCurrentThread (s : State) : Option ThreadState :=
  (s.getActiveThreadStack).getLast?

/-- Program counter of the current thread; none on an empty active stack. -/
def State.GetPC (s : State) : Option Nat :=
  (s.getCurrentThread).map fun t => t.cpu.PC

/-- Registers of the current thread; none on an empty active stack. -/
def State.GetRegisters (s : State) : Option (List Nat) :=
  (s.getCurrentThread).map fun t => t.registers

/-- Status byte of a whole state (State.VMStatus). -/
def State.VMStatus (s : State) : Nat := VmStatus s.exited s.exitCode

/-- Hash of a 179-byte state witness (stateHashFromWitness): keccak256 of
the witness with byte 0 overwritten by the status derived from bytes 80
and 81.  The Go function panics on any other length; the panic is
modelled as none. -/
def stateHashFromWitness (sw : List Nat) : Option (List Nat) :=
  if sw.length = STATE_WITNESS_SIZE then
    some ((keccak256 sw).set 0
      (VmStatus (sw.getD EXITED_WITNESS_OFFSET 0 == 1) (sw.getD EXITCODE_WITNESS_OFFSET 0)))
  else none

/-- Canonical 179-byte witness of a state together with its hash
(State.EncodeWitness).  The field order and widths follow the source. -/
def State.EncodeWitness (s : State) : List Nat × Option (List Nat) :=
  let out :=
    s.memRoot ++ s.preimageKey ++ be64 s.preimageOffset ++ be64 s.heap ++
    [s.exitCode] ++ [boolByte s.exited] ++ be64 s.step ++
    be64 s.stepsSinceLastContextSwitch ++ be64 s.wakeup ++
    [boolByte s.traverseRight] ++
    calculateThreadStackRoot s.leftThreadStack ++
    calculateThreadStackRoot s.rightThreadStack ++
    be64 s.nextThreadId
  (out, stateHashFromWitness out)

/-- A state witness is a plain byte string. -/
abbrev StateWitness := List Nat

/-- Failure of StateWitness.StateHash on a wrongly sized witness. -/
inductive WitnessSizeErr where
  | mismatch (got expected : Nat)
deriving DecidableEq

/-- StateWitness.StateHash: the fallible entry point of the state hash.
The Go method tests len(sw) != STATE_WITNESS_SIZE and returns an error;
stateHashFromWitness tests the same predicate, so the two agree. -/
def StateWitness.StateHash (sw : StateWitness) : Except WitnessSizeErr (List Nat) :=
  match stateHashFromWitness sw with
  | some hsh => .ok hsh
  | none => .error (.mismatch sw.length STATE_WITNESS_SIZE)

/-- Thread proof of the current thread (State.EncodeThreadProof): the
serialized top of the active stack followed by the hash-onion root of
the active stack with that thread removed.  The Go method panics on an
empty active stack; the panic is modelled as none. -/
def State.EncodeThreadProof (s : State) : Option (List Nat) :=
  match (s.getActiveThreadStack).getLast? with
  | none => none
  | some activeThread =>
      some (serializeThread activeThread ++
        calculateThreadStackRoot ((s.getActiveThreadStack).dropLast))

/-- Cache state of the tracking preimage-oracle reader
(exec.TrackingPreimageOracleReader): the last length-prefixed preimage,
its key, and the offset last read from. -/
structure TrackingPreimageOracleReader where
  lastPreimage : List Nat
  lastPreimageKey : List Nat
  lastPreimageOffset : Nat
deriving DecidableEq

/-- Length-prefixed stream of a piece of oracle data: 8-byte big-endian
length followed by the data. -/
def lengthPrefixed (data : List Nat) : List Nat := be64 data.length ++ data

/-- ReadPreimage on the tracking reader.  The underlying oracle is a pure
function from key to data.  Returns the 32-byte chunk (zero padded), the
number of copied bytes, the updated cache, and whether the underlying
oracle was queried; none models the Go slice panic that fires when
offset exceeds the length of the applicable prefixed stream. -/
def ReadPreimage (oracle : List Nat → List Nat) (p : TrackingPreimageOracleReader)
    (key : List Nat) (offset : Nat) :
    Option (List Nat × Nat × TrackingPreimageOracleReader × Bool) :=
  let preimage :=
    if key = p.lastPreimageKey then p.lastPreimage else lengthPrefixed (oracle key)
  if offset ≤ preimage.length then
    let chunk := (preimage.drop offset).take 32
    some (chunk ++ List.replicate (32 - chunk.length) 0, chunk.length,
      ⟨preimage, key, offset⟩, decide (key ≠ p.lastPreimageKey))
  else none

/-- HEAP_START from the sources. -/
def HEAP_START : Nat := 0x1000000000000000

/-- Segment type constant for PT_LOAD. -/
def PT_LOAD : Nat := 1

/-- Segment type constant skipped by the loader. -/
def MIPS_ABIFLAGS : Nat := 0x70000003

/-- One ELF program segment as the loader sees it: type, virtual address,
file size, memory size, and the file bytes backing the segment. -/
structure ProgSegment where
  ptype : Nat
  vaddr : Nat
  filesz : Nat
  memsz : Nat
  data : List Nat
deriving DecidableEq

/-- Failures of LoadELF. -/
inductive LoadErr where
  | ptLoadFileSizeExceedsMem (idx : Nat)
  | fileSizeMismatch (idx : Nat)
  | segmentOverlapsHeap (idx : Nat)
deriving DecidableEq

/-- The bytes a non-erroring segment writes to memory: the file bytes,
zero padded to memsz for a PT_LOAD segment with filesz < memsz. -/
def segLoadBytes (p : ProgSegment) : List Nat :=
  if p.ptype = PT_LOAD ∧ p.filesz < p.memsz then
    p.data.take p.filesz ++ List.replicate (p.memsz - p.filesz) 0
  else p.data.take p.filesz

/-- Segment loop of LoadELF, carrying the index for error reporting.
Addresses are 64-bit in Go, so the end-of-segment bound is computed
mod 2^64.  The memory writes of SetMemoryRange (outside the provided
sources) are modelled as the ordered list of (vaddr, bytes) pairs. -/
def loadSegments (heapStart : Nat) : Nat → List ProgSegment → Except LoadErr (List (Nat × List Nat))
  | _, [] => .ok []
  | i, p :: rest =>
    if p.ptype = MIPS_ABIFLAGS then loadSegments heapStart (i + 1) rest
    else if p.filesz ≠ p.memsz ∧ ¬(p.ptype = PT_LOAD ∧ p.filesz < p.memsz) then
      if p.ptype = PT_LOAD then .error (.ptLoadFileSizeExceedsMem i)
      else .error (.fileSizeMismatch i)
    else if heapStart ≤ (p.vaddr + p.memsz) % 2 ^ 64 then
      .error (.segmentOverlapsHeap i)
    else
      match loadSegments heapStart (i + 1) rest with
      | .ok restLoads => .ok ((p.vaddr, segLoadBytes p) :: restLoads)
      | .error e => .error e

/-- LoadELF over the program segments of an ELF file. -/
def LoadELF (segs : List ProgSegment) : Except LoadErr (List (Nat × List Nat)) :=
  loadSegments HEAP_START 0 segs

/-- Well-formed thread: 32 registers and all scalar fields within their
Go machine widths. -/
def WFThread (t : ThreadState) : Prop :=
  t.registers.length = 32 ∧ t.threadId < 2 ^ 64 ∧ t.exitCode < 2 ^ 8 ∧
  t.futexAddr < 2 ^ 64 ∧ t.futexVal < 2 ^ 64 ∧ t.futexTimeoutStep < 2 ^ 64 ∧
  t.cpu.PC < 2 ^ 64 ∧ t.cpu.NextPC < 2 ^ 64 ∧ t.cpu.LO < 2 ^ 64 ∧ t.cpu.HI < 2 ^ 64 ∧
  ∀ r ∈ t.registers, r < 2 ^ 64

instance (t : ThreadState) : Decidable (WFThread t) := by
  unfold WFThread
  infer_instance

/-- Well-formed state: 32-byte memory root and preimage key, and all
scalar fields within their Go machine widths. -/
def WFState (s : State) : Prop :=
  s.memRoot.length = 32 ∧ s.preimageKey.length = 32 ∧
  s.preimageOffset < 2 ^ 64 ∧ s.heap < 2 ^ 64 ∧ s.exitCode < 2 ^ 8 ∧
  s.step < 2 ^ 64 ∧ s.stepsSinceLastContextSwitch < 2 ^ 64 ∧ s.wakeup < 2 ^ 64 ∧
  s.nextThreadId < 2 ^ 64

instance (s : State) : Decidable (WFState s) := by
  unfold WFState
  infer_instance

/-- Length of a big-endian 64-bit encoding. -/
theorem be64_length (x : Nat) : (be64 x).length = 8 := rfl

/-- Decoding a big-endian 64-bit encoding recovers the low 64 bits. -/
theorem beToNat_be64 (x : Nat) : beToNat (be64 x) = x % 2 ^ 64 := by
  simp only [be64, beToNat, List.foldl]
  omega

/-- Length of a length-prefixed oracle stream. -/
theorem lengthPrefixed_length (data : List Nat) :
    (lengthPrefixed data).length = 8 + data.length := by
  simp [lengthPrefixed, be64_length]

/-- Keccak-256 always squeezes exactly 32 bytes. -/
theorem keccak256_length (m : List Nat) : (keccak256 m).length = 32 := rfl

/-- Keccak-256 output is never the empty list. -/
theorem keccak256_ne_nil (m : List Nat) : keccak256 m ≠ [] := by
  intro hnil
  have h := keccak256_length m
  rw [hnil] at h
  simp at h

/-- Length of the empty-threads root constant. -/
theorem emptyThreadsRoot_length : EmptyThreadsRoot.length = 32 := rfl

/-- Folding the hash onion keeps a 32-byte accumulator. -/
theorem foldl_computeThreadRoot_length (stack : List ThreadState) (init : List Nat)
    (h : init.length = 32) : (stack.foldl computeThreadRoot init).length = 32 := by
  induction stack generalizing init with
  | nil => simpa using h
  | cons t rest ih => exact ih _ (keccak256_length _)

/-- Thread-stack roots are always 32 bytes. -/
theorem calculateThreadStackRoot_length (stack : List ThreadState) :
    (calculateThreadStackRoot stack).length = 32 :=
  foldl_computeThreadRoot_length stack EmptyThreadsRoot rfl

/-- Dropping past a chunk of known length lands at the tail behind it. -/
theorem drop_chunk {w c rest : List Nat} (n k m : Nat)
    (hm : m = n + k) (hw : w.drop n = c ++ rest) (hc : c.length = k) :
    w.drop m = rest := by
  rw [hm, ← List.drop_drop, hw, List.drop_left' hc]

/-- Reading one byte at an offset whose tail is known. -/
theorem getD_of_drop {α : Type} (n : Nat) (w rest : List α) (a d : α)
    (h : w.drop n = a :: rest) : w.getD n d = a := by
  induction n generalizing w with
  | zero =>
    simp at h
    simp [h, List.getD]
  | succ n ih =>
    cases w with
    | nil => simp at h
    | cons b t =>
      simp only [List.drop_succ_cons] at h
      simpa [List.getD] using ih t h

/-- Overwriting byte 0 of a non-empty list is what getD 0 then reads. -/
theorem set_zero_getD (l : List Nat) (a : Nat) (h : l ≠ []) :
    (l.set 0 a).getD 0 0 = a := by
  cases l with
  | nil => exact absurd rfl h
  | cons b t => rfl

/-- Length of the flattened register serialization. -/
theorem flatten_map_be64_length (rs : List Nat) :
    ((rs.map be64).flatten).length = 8 * rs.length := by
  induction rs with
  | nil => simp
  | cons r rest ih => simp [ih, be64_length]; omega

/-- Extracting register i from the flattened register serialization. -/
theorem flatten_map_be64_extract (rs : List Nat) (i : Nat) (hi : i < rs.length) :
    (((rs.map be64).flatten).drop (8 * i)).take 8 = be64 (rs.getD i 0) := by
  induction rs generalizing i with
  | nil => simp at hi
  | cons r rest ih =>
    cases i with
    | zero =>
      simp only [List.map_cons, List.flatten_cons, Nat.mul_zero, List.drop_zero, List.getD]
      rw [List.take_left' (be64_length r)]
      rfl
    | succ i =>
      have harith : 8 * (i + 1) = 8 + 8 * i := by ring
      rw [List.map_cons, List.flatten_cons, harith, ← List.drop_drop,
        List.drop_left' (be64_length r)]
      simpa [List.getD] using ih i (by simpa using hi)

/-- Length of a serialized thread with 32 registers. -/
theorem serializeThread_length (t : ThreadState) (h : t.registers.length = 32) :
    (serializeThread t).length = SERIALIZED_THREAD_SIZE := by
  have hf := flatten_map_be64_length t.registers
  rw [h] at hf
  simp only [serializeThread, List.length_append, be64_length, List.length_singleton, hf,
    SERIALIZED_THREAD_SIZE]

/-- A list has a last element exactly when it is non-empty. -/
theorem getLast?_isSome_iff {α : Type} (l : List α) : l.getLast?.isSome ↔ l ≠ [] := by
  cases l using List.reverseRecOn <;> simp

/-- Field-by-field decomposition of the 179-byte state witness: every
field sits at its fixed offset, big-endian, and decodes back to the
state field.  Shared backbone of the witness-layout and state-hash
results. -/
theorem encodeWitness_fields (s : State) (h : WFState s) :
    (s.EncodeWitness).1.length = STATE_WITNESS_SIZE ∧
    (s.EncodeWitness).1.take 32 = s.memRoot ∧
    ((s.EncodeWitness).1.drop 32).take 32 = s.preimageKey ∧
    beToNat (((s.EncodeWitness).1.drop 64).take 8) = s.preimageOffset ∧
    beToNat (((s.EncodeWitness).1.drop 72).take 8) = s.heap ∧
    (s.EncodeWitness).1.getD 80 0 = s.exitCode ∧
    (s.EncodeWitness).1.getD 81 0 = boolByte s.exited ∧
    beToNat (((s.EncodeWitness).1.drop 82).take 8) = s.step ∧
    beToNat (((s.EncodeWitness).1.drop 90).take 8) = s.stepsSinceLastContextSwitch ∧
    beToNat (((s.EncodeWitness).1.drop 98).take 8) = s.wakeup ∧
    (s.EncodeWitness).1.getD 106 0 = boolByte s.traverseRight ∧
    ((s.EncodeWitness).1.drop 107).take 32 = calculateThreadStackRoot s.leftThreadStack ∧
    ((s.EncodeWitness).1.drop 139).take 32 = calculateThreadStackRoot s.rightThreadStack ∧
    beToNat (((s.EncodeWitness).1.drop 171).take 8) = s.nextThreadId := by
  obtain ⟨h1, h2, h3, h4, h5, h6, h7, h8, h9⟩ := h
  have hw : (s.EncodeWitness).1 =
      s.memRoot ++ (s.preimageKey ++ (be64 s.preimageOffset ++ (be64 s.heap ++
      ([s.exitCode] ++ ([boolByte s.exited] ++ (be64 s.step ++
      (be64 s.stepsSinceLastContextSwitch ++ (be64 s.wakeup ++
      ([boolByte s.traverseRight] ++ (calculateThreadStackRoot s.leftThreadStack ++
      (calculateThreadStackRoot s.rightThreadStack ++
        be64 s.nextThreadId))))))))))) := by
    simp [State.EncodeWitness]
  have e32 : (s.EncodeWitness).1.drop 32 =
      s.preimageKey ++ (be64 s.preimageOffset ++ (be64 s.heap ++
      ([s.exitCode] ++ ([boolByte s.exited] ++ (be64 s.step ++
      (be64 s.stepsSinceLastContextSwitch ++ (be64 s.wakeup ++
      ([boolByte s.traverseRight] ++ (calculateThreadStackRoot s.leftThreadStack ++
      (calculateThreadStackRoot s.rightThreadStack ++ be64 s.nextThreadId)))))))))) := by
    rw [hw]
    exact List.drop_left' h1
  have e64 : (s.EncodeWitness).1.drop 64 =
      be64 s.preimageOffset ++ (be64 s.heap ++
      ([s.exitCode] ++ ([boolByte s.exited] ++ (be64 s.step ++
      (be64 s.stepsSinceLastContextSwitch ++ (be64 s.wakeup ++
      ([boolByte s.traverseRight] ++ (calculateThreadStackRoot s.leftThreadStack ++
      (calculateThreadStackRoot s.rightThreadStack ++ be64 s.nextThreadId))))))))) :=
    drop_chunk 32 32 64 (by norm_num) e32 h2
  have e72 : (s.EncodeWitness).1.drop 72 =
      be64 s.heap ++
      ([s.exitCode] ++ ([boolByte s.exited] ++ (be64 s.step ++
      (be64 s.stepsSinceLastContextSwitch ++ (be64 s.wakeup ++
      ([boolByte s.traverseRight] ++ (calculateThreadStackRoot s.leftThreadStack ++
      (calculateThreadStackRoot s.rightThreadStack ++ be64 s.nextThreadId)))))))) :=
    drop_chunk 64 8 72 (by norm_num) e64 (be64_length _)
  have e80 : (s.EncodeWitness).1.drop 80 =
      [s.exitCode] ++ ([boolByte s.exited] ++ (be64 s.step ++
      (be64 s.stepsSinceLastContextSwitch ++ (be64 s.wakeup ++
      ([boolByte s.traverseRight] ++ (calculateThreadStackRoot s.leftThreadStack ++
      (calculateThreadStackRoot s.rightThreadStack ++ be64 s.nextThreadId))))))) :=
    drop_chunk 72 8 80 (by norm_num) e72 (be64_length _)
  have e81 : (s.EncodeWitness).1.drop 81 =
      [boolByte s.exited] ++ (be64 s.step ++
      (be64 s.stepsSinceLastContextSwitch ++ (be64 s.wakeup ++
      ([boolByte s.traverseRight] ++ (calculateThreadStackRoot s.leftThreadStack ++
      (calculateThreadStackRoot s.rightThreadStack ++ be64 s.nextThreadId)))))) :=
    drop_chunk 80 1 81 (by norm_num) e80 rfl
  have e82 : (s.EncodeWitness).1.drop 82 =
      be64 s.step ++
      (be64 s.stepsSinceLastContextSwitch ++ (be64 s.wakeup ++
      ([boolByte s.traverseRight] ++ (calculateThreadStackRoot s.leftThreadStack ++
      (calculateThreadStackRoot s.rightThreadStack ++ be64 s.nextThreadId))))) :=
    drop_chunk 81 1 82 (by norm_num) e81 rfl
  have e90 : (s.EncodeWitness).1.drop 90 =
      be64 s.stepsSinceLastContextSwitch ++ (be64 s.wakeup ++
      ([boolByte s.traverseRight] ++ (calculateThreadStackRoot s.leftThreadStack ++
      (calculateThreadStackRoot s.rightThreadStack ++ be64 s.nextThreadId)))) :=
    drop_chunk 82 8 90 (by norm_num) e82 (be64_length _)
  have e98 : (s.EncodeWitness).1.drop 98 =
      be64 s.wakeup ++
      ([boolByte s.traverseRight] ++ (calculateThreadStackRoot s.leftThreadStack ++
      (calculateThreadStackRoot s.rightThreadStack ++ be64 s.nextThreadId))) :=
    drop_chunk 90 8 98 (by norm_num) e90 (be64_length _)
  have e106 : (s.EncodeWitness).1.drop 106 =
      [boolByte s.traverseRight] ++ (calculateThreadStackRoot s.leftThreadStack ++
      (calculateThreadStackRoot s.rightThreadStack ++ be64 s.nextThreadId)) :=
    drop_chunk 98 8 106 (by norm_num) e98 (be64_length _)
  have e107 : (s.EncodeWitness).1.drop 107 =
      calculateThreadStackRoot s.leftThreadStack ++
      (calculateThreadStackRoot s.rightThreadStack ++ be64 s.nextThreadId) :=
    drop_chunk 106 1 107 (by norm_num) e106 rfl
  have e139 : (s.EncodeWitness).1.drop 139 =
      calculateThreadStackRoot s.rightThreadStack ++ be64 s.nextThreadId :=
    drop_chunk 107 32 139 (by norm_num) e107 (calculateThreadStackRoot_length _)
  have e171 : (s.EncodeWitness).1.drop 171 = be64 s.nextThreadId :=
    drop_chunk 139 32 171 (by norm_num) e139 (calculateThreadStackRoot_length _)
  refine ⟨?_, ?_, ?_, ?_, ?_, ?_, ?_, ?_, ?_, ?_, ?_, ?_, ?_, ?_⟩
  · rw [hw]
    simp only [List.length_append, be64_length, List.length_singleton, h1, h2,
      calculateThreadStackRoot_length, STATE_WITNESS_SIZE]
  · rw [hw]
    exact List.take_left' h1
  · rw [e32]
    exact List.take_left' h2
  · rw [e64, List.take_left' (be64_length _), beToNat_be64]
    exact Nat.mod_eq_of_lt h3
  · rw [e72, List.take_left' (be64_length _), beToNat_be64]
    exact Nat.mod_eq_of_lt h4
  · exact getD_of_drop 80 _ _ _ _ e80
  · exact getD_of_drop 81 _ _ _ _ e81
  · rw [e82, List.take_left' (be64_length _), beToNat_be64]
    exact Nat.mod_eq_of_lt h6
  · rw [e90, List.take_left' (be64_length _), beToNat_be64]
    exact Nat.mod_eq_of_lt h7
  · rw [e98, List.take_left' (be64_length _), beToNat_be64]
    exact Nat.mod_eq_of_lt h8
  · exact getD_of_drop 106 _ _ _ _ e106
  · rw [e107]
    exact List.take_left' (calculateThreadStackRoot_length _)
  · rw [e139]
    exact List.take_left' (calculateThreadStackRoot_length _)
  · rw [e171, List.take_of_length_le (le_of_eq (be64_length _)), beToNat_be64]
    exact Nat.mod_eq_of_lt h9

/-- C1: EncodeWitness returns a pair (w, h) in which h is keccak256(w)
with byte 0 overwritten by the VM status byte derived from
(Exited, ExitCode); consequently byte 0 of h is VMStatus of the state,
and the state-hash-from-witness function applied to the returned witness
bytes yields exactly the returned hash. -/
theorem encodeWitness_stateHash_spec (s : State) (h : WFState s) :
    ∃ hsh, (s.EncodeWitness).2 = some hsh ∧
      hsh = (keccak256 (s.EncodeWitness).1).set 0 (VmStatus s.exited s.exitCode) ∧
      hsh.getD 0 0 = s.VMStatus ∧
      stateHashFromWitness (s.EncodeWitness).1 = some hsh := by
  obtain ⟨hlen, -, -, -, -, h80, h81, -, -, -, -, -, -, -⟩ := encodeWitness_fields s h
  have h2eq : (s.EncodeWitness).2 = stateHashFromWitness (s.EncodeWitness).1 := by
    simp [State.EncodeWitness]
  have hb : ((s.EncodeWitness).1.getD 81 0 == 1) = s.exited := by
    rw [h81]
    cases s.exited <;> rfl
  have hsw : stateHashFromWitness (s.EncodeWitness).1 =
      some ((keccak256 (s.EncodeWitness).1).set 0 (VmStatus s.exited s.exitCode)) := by
    unfold stateHashFromWitness
    rw [if_pos hlen]
    simp only [EXITED_WITNESS_OFFSET, EXITCODE_WITNESS_OFFSET]
    rw [hb, h80]
  refine ⟨(keccak256 (s.EncodeWitness).1).set 0 (VmStatus s.exited s.exitCode),
    h2eq.trans hsw, rfl, ?_, hsw⟩
  exact set_zero_getD _ _ (keccak256_ne_nil _)

/-- Concrete well-formed state used to witness the codec results. -/
def exState : State :=
  { memRoot := List.replicate 32 0
    preimageKey := List.replicate 32 0
    preimageOffset := 0
    heap := 0
    exitCode := 0
    exited := false
    step := 0
    stepsSinceLastContextSwitch := 0
    wakeup := 0
    traverseRight := false
    leftThreadStack := []
    rightThreadStack := []
    nextThreadId := 1 }

/-- Witness for C1 at a concrete state. -/
theorem encodeWitness_stateHash_spec_witness :
    WFState exState ∧
    ∃ hsh, (exState.EncodeWitness).2 = some hsh ∧
      hsh = (keccak256 (exState.EncodeWitness).1).set 0
        (VmStatus exState.exited exState.exitCode) ∧
      hsh.getD 0 0 = exState.VMStatus ∧
      stateHashFromWitness (exState.EncodeWitness).1 = some hsh :=
  ⟨by decide, encodeWitness_stateHash_spec exState (by decide)⟩

/-- C2: the witness bytes have length exactly 179 and follow the fixed
big-endian layout: memory root at 0, preimage key at 32, preimage offset
at 64, heap at 72, exit code at 80, exited flag at 81, step at 82, steps
since the last context switch at 90, wakeup at 98, traverse-right flag at
106, left-stack root at 107, right-stack root at 139, and the next thread
id at 171. -/
theorem encodeWitness_layout_spec (s : State) (h : WFState s) :
    (s.EncodeWitness).1.length = 179 ∧
    (s.EncodeWitness).1.take 32 = s.memRoot ∧
    ((s.EncodeWitness).1.drop 32).take 32 = s.preimageKey ∧
    beToNat (((s.EncodeWitness).1.drop 64).take 8) = s.preimageOffset ∧
    beToNat (((s.EncodeWitness).1.drop 72).take 8) = s.heap ∧
    (s.EncodeWitness).1.getD 80 0 = s.exitCode ∧
    (s.EncodeWitness).1.getD 81 0 = (if s.exited then 1 else 0) ∧
    beToNat (((s.EncodeWitness).1.drop 82).take 8) = s.step ∧
    beToNat (((s.EncodeWitness).1.drop 90).take 8) = s.stepsSinceLastContextSwitch ∧
    beToNat (((s.EncodeWitness).1.drop 98).take 8) = s.wakeup ∧
    (s.EncodeWitness).1.getD 106 0 = (if s.traverseRight then 1 else 0) ∧
    ((s.EncodeWitness).1.drop 107).take 32 = calculateThreadStackRoot s.leftThreadStack ∧
    ((s.EncodeWitness).1.drop 139).take 32 = calculateThreadStackRoot s.rightThreadStack ∧
    beToNat (((s.EncodeWitness).1.drop 171).take 8) = s.nextThreadId :=
  encodeWitness_fields s h

/-- Witness for C2 at a concrete state. -/
theorem encodeWitness_layout_spec_witness :
    WFState exState ∧
    ((exState.EncodeWitness).1.length = 179 ∧
    (exState.EncodeWitness).1.take 32 = exState.memRoot ∧
    ((exState.EncodeWitness).1.drop 32).take 32 = exState.preimageKey ∧
    beToNat (((exState.EncodeWitness).1.drop 64).take 8) = exState.preimageOffset ∧
    beToNat (((exState.EncodeWitness).1.drop 72).take 8) = exState.heap ∧
    (exState.EncodeWitness).1.getD 80 0 = exState.exitCode ∧
    (exState.EncodeWitness).1.getD 81 0 = (if exState.exited then 1 else 0) ∧
    beToNat (((exState.EncodeWitness).1.drop 82).take 8) = exState.step ∧
    beToNat (((exState.EncodeWitness).1.drop 90).take 8) =
      exState.stepsSinceLastContextSwitch ∧
    beToNat (((exState.EncodeWitness).1.drop 98).take 8) = exState.wakeup ∧
    (exState.EncodeWitness).1.getD 106 0 = (if exState.traverseRight then 1 else 0) ∧
    ((exState.EncodeWitness).1.drop 107).take 32 =
      calculateThreadStackRoot exState.leftThreadStack ∧
    ((exState.EncodeWitness).1.drop 139).take 32 =
      calculateThreadStackRoot exState.rightThreadStack ∧
    beToNat (((exState.EncodeWitness).1.drop 171).take 8) = exState.nextThreadId) :=
  ⟨by decide, encodeWitness_layout_spec exState (by decide)⟩

/-- Field-by-field decomposition of a serialized thread. -/
theorem serializeThread_fields (t : ThreadState) (h : WFThread t) :
    (serializeThread t).length = 322 ∧
    beToNat ((serializeThread t).take 8) = t.threadId ∧
    (serializeThread t).getD 8 0 = t.exitCode ∧
    (serializeThread t).getD 9 0 = boolByte t.exited ∧
    beToNat (((serializeThread t).drop 10).take 8) = t.futexAddr ∧
    beToNat (((serializeThread t).drop 18).take 8) = t.futexVal ∧
    beToNat (((serializeThread t).drop 26).take 8) = t.futexTimeoutStep ∧
    beToNat (((serializeThread t).drop 34).take 8) = t.cpu.PC ∧
    beToNat (((serializeThread t).drop 42).take 8) = t.cpu.NextPC ∧
    beToNat (((serializeThread t).drop 50).take 8) = t.cpu.LO ∧
    beToNat (((serializeThread t).drop 58).take 8) = t.cpu.HI ∧
    ∀ i, i < 32 → beToNat (((serializeThread t).drop (66 + 8 * i)).take 8) =
      t.registers.getD i 0 := by
  obtain ⟨hr, ht, hec, hfa, hfv, hft, hpc, hnpc, hlo, hhi, hregs⟩ := h
  have hw : serializeThread t =
      be64 t.threadId ++ ([t.exitCode] ++ ([boolByte t.exited] ++
      (be64 t.futexAddr ++ (be64 t.futexVal ++ (be64 t.futexTimeoutStep ++
      (be64 t.cpu.PC ++ (be64 t.cpu.NextPC ++ (be64 t.cpu.LO ++
      (be64 t.cpu.HI ++ (t.registers.map be64).flatten))))))))) := by
    simp [serializeThread]
  have e0 : (serializeThread t).drop 0 =
      be64 t.threadId ++ ([t.exitCode] ++ ([boolByte t.exited] ++
      (be64 t.futexAddr ++ (be64 t.futexVal ++ (be64 t.futexTimeoutStep ++
      (be64 t.cpu.PC ++ (be64 t.cpu.NextPC ++ (be64 t.cpu.LO ++
      (be64 t.cpu.HI ++ (t.registers.map be64).flatten))))))))) := by
    rw [List.drop_zero]
    exact hw
  have e8 : (serializeThread t).drop 8 =
      [t.exitCode] ++ ([boolByte t.exited] ++
      (be64 t.futexAddr ++ (be64 t.futexVal ++ (be64 t.futexTimeoutStep ++
      (be64 t.cpu.PC ++ (be64 t.cpu.NextPC ++ (be64 t.cpu.LO ++
      (be64 t.cpu.HI ++ (t.registers.map be64).flatten)))))))) :=
    drop_chunk 0 8 8 (by norm_num) e0 (be64_length _)
  have e9 : (serializeThread t).drop 9 =
      [boolByte t.exited] ++
      (be64 t.futexAddr ++ (be64 t.futexVal ++ (be64 t.futexTimeoutStep ++
      (be64 t.cpu.PC ++ (be64 t.cpu.NextPC ++ (be64 t.cpu.LO ++
      (be64 t.cpu.HI ++ (t.registers.map be64).flatten))))))) :=
    drop_chunk 8 1 9 (by norm_num) e8 rfl
  have e10 : (serializeThread t).drop 10 =
      be64 t.futexAddr ++ (be64 t.futexVal ++ (be64 t.futexTimeoutStep ++
      (be64 t.cpu.PC ++ (be64 t.cpu.NextPC ++ (be64 t.cpu.LO ++
      (be64 t.cpu.HI ++ (t.registers.map be64).flatten)))))) :=
    drop_chunk 9 1 10 (by norm_num) e9 rfl
  have e18 : (serializeThread t).drop 18 =
      be64 t.futexVal ++ (be64 t.futexTimeoutStep ++
      (be64 t.cpu.PC ++ (be64 t.cpu.NextPC ++ (be64 t.cpu.LO ++
      (be64 t.cpu.HI ++ (t.registers.map be64).flatten))))) :=
    drop_chunk 10 8 18 (by norm_num) e10 (be64_length _)
  have e26 : (serializeThread t).drop 26 =
      be64 t.futexTimeoutStep ++
      (be64 t.cpu.PC ++ (be64 t.cpu.NextPC ++ (be64 t.cpu.LO ++
      (be64 t.cpu.HI ++ (t.registers.map be64).flatten)))) :=
    drop_chunk 18 8 26 (by norm_num) e18 (be64_length _)
  have e34 : (serializeThread t).drop 34 =
      be64 t.cpu.PC ++ (be64 t.cpu.NextPC ++ (be64 t.cpu.LO ++
      (be64 t.cpu.HI ++ (t.registers.map be64).flatten))) :=
    drop_chunk 26 8 34 (by norm_num) e26 (be64_length _)
  have e42 : (serializeThread t).drop 42 =
      be64 t.cpu.NextPC ++ (be64 t.cpu.LO ++
      (be64 t.cpu.HI ++ (t.registers.map be64).flatten)) :=
    drop_chunk 34 8 42 (by norm_num) e34 (be64_length _)
  have e50 : (serializeThread t).drop 50 =
      be64 t.cpu.LO ++ (be64 t.cpu.HI ++ (t.registers.map be64).flatten) :=
    drop_chunk 42 8 50 (by norm_num) e42 (be64_length _)
  have e58 : (serializeThread t).drop 58 =
      be64 t.cpu.HI ++ (t.registers.map be64).flatten :=
    drop_chunk 50 8 58 (by norm_num) e50 (be64_length _)
  have e66 : (serializeThread t).drop 66 = (t.registers.map be64).flatten :=
    drop_chunk 58 8 66 (by norm_num) e58 (be64_length _)
  refine ⟨serializeThread_length t hr, ?_, getD_of_drop 8 _ _ _ _ e8,
    getD_of_drop 9 _ _ _ _ e9, ?_, ?_, ?_, ?_, ?_, ?_, ?_, ?_⟩
  · rw [hw, List.take_left' (be64_length _), beToNat_be64]
    exact Nat.mod_eq_of_lt ht
  · rw [e10, List.take_left' (be64_length _), beToNat_be64]
    exact Nat.mod_eq_of_lt hfa
  · rw [e18, List.take_left' (be64_length _), beToNat_be64]
    exact Nat.mod_eq_of_lt hfv
  · rw [e26, List.take_left' (be64_length _), beToNat_be64]
    exact Nat.mod_eq_of_lt hft
  · rw [e34, List.take_left' (be64_length _), beToNat_be64]
    exact Nat.mod_eq_of_lt hpc
  · rw [e42, List.take_left' (be64_length _), beToNat_be64]
    exact Nat.mod_eq_of_lt hnpc
  · rw [e50, List.take_left' (be64_length _), beToNat_be64]
    exact Nat.mod_eq_of_lt hlo
  · rw [e58, List.take_left' (be64_length _), beToNat_be64]
    exact Nat.mod_eq_of_lt hhi
  · intro i hi
    have hi' : i < t.registers.length := by rw [hr]; exact hi
    have hsplit : (serializeThread t).drop (66 + 8 * i) =
        ((serializeThread t).drop 66).drop (8 * i) := by
      rw [List.drop_drop]
    rw [hsplit, e66, flatten_map_be64_extract t.registers i hi', beToNat_be64]
    refine Nat.mod_eq_of_lt (hregs _ ?_)
    rw [List.getD_eq_getElem t.registers 0 hi']
    exact List.getElem_mem hi'

/-- C3: serializeThread produces exactly 322 bytes, big-endian, in the
order thread id, exit code, exited flag, futex address, futex value,
futex timeout step, the four CPU scalars PC, NextPC, LO, HI, then the 32
general-purpose registers, 8 bytes each. -/
theorem serializeThread_layout_spec (t : ThreadState) (h : WFThread t) :
    (serializeThread t).length = 322 ∧
    beToNat ((serializeThread t).take 8) = t.threadId ∧
    (serializeThread t).getD 8 0 = t.exitCode ∧
    (serializeThread t).getD 9 0 = (if t.exited then 1 else 0) ∧
    beToNat (((serializeThread t).drop 10).take 8) = t.futexAddr ∧
    beToNat (((serializeThread t).drop 18).take 8) = t.futexVal ∧
    beToNat (((serializeThread t).drop 26).take 8) = t.futexTimeoutStep ∧
    beToNat (((serializeThread t).drop 34).take 8) = t.cpu.PC ∧
    beToNat (((serializeThread t).drop 42).take 8) = t.cpu.NextPC ∧
    beToNat (((serializeThread t).drop 50).take 8) = t.cpu.LO ∧
    beToNat (((serializeThread t).drop 58).take 8) = t.cpu.HI ∧
    ∀ i, i < 32 → beToNat (((serializeThread t).drop (66 + 8 * i)).take 8) =
      t.registers.getD i 0 :=
  serializeThread_fields t h

/-- Concrete well-formed thread used to witness the serialization results. -/
def exThread : ThreadState :=
  { threadId := 0
    exitCode := 0
    exited := false
    futexAddr := 0
    futexVal := 0
    futexTimeoutStep := 0
    cpu := { PC := 0, NextPC := 4, LO := 0, HI := 0 }
    registers := List.replicate 32 0 }

/-- Witness for C3 at a concrete thread. -/
theorem serializeThread_layout_spec_witness :
    WFThread exThread ∧
    ((serializeThread exThread).length = 322 ∧
    beToNat ((serializeThread exThread).take 8) = exThread.threadId ∧
    (serializeThread exThread).getD 8 0 = exThread.exitCode ∧
    (serializeThread exThread).getD 9 0 = (if exThread.exited then 1 else 0) ∧
    beToNat (((serializeThread exThread).drop 10).take 8) = exThread.futexAddr ∧
    beToNat (((serializeThread exThread).drop 18).take 8) = exThread.futexVal ∧
    beToNat (((serializeThread exThread).drop 26).take 8) = exThread.futexTimeoutStep ∧
    beToNat (((serializeThread exThread).drop 34).take 8) = exThread.cpu.PC ∧
    beToNat (((serializeThread exThread).drop 42).take 8) = exThread.cpu.NextPC ∧
    beToNat (((serializeThread exThread).drop 50).take 8) = exThread.cpu.LO ∧
    beToNat (((serializeThread exThread).drop 58).take 8) = exThread.cpu.HI ∧
    ∀ i, i < 32 → beToNat (((serializeThread exThread).drop (66 + 8 * i)).take 8) =
      exThread.registers.getD i 0) :=
  ⟨by decide, serializeThread_layout_spec exThread (by decide)⟩

/-- C4: the hash-onion root of a thread stack is the left fold of
root to keccak256(root concatenated with keccak256 of the serialized
thread) over the threads from bottom to top, starting from the
EmptyThreadsRoot constant, which is keccak256 of 64 zero bytes; the
root of the empty stack is that constant. -/
theorem threadStackRoot_hashOnion_spec (stack : List ThreadState) :
    calculateThreadStackRoot stack =
      stack.foldl (fun root t => keccak256 (root ++ keccak256 (serializeThread t)))
        EmptyThreadsRoot ∧
    keccak256 (List.replicate 64 0) = EmptyThreadsRoot ∧
    calculateThreadStackRoot [] = EmptyThreadsRoot := by
  refine ⟨rfl, by decide, rfl⟩

/-- C5: on a state whose active stack has top thread t, EncodeThreadProof
returns exactly 354 bytes: the 322-byte serialization of t followed by
the 32-byte hash-onion root of the active stack with t removed. -/
theorem encodeThreadProof_spec (s : State) (t : ThreadState)
    (htop : (s.getActiveThreadStack).getLast? = some t) (hwf : WFThread t) :
    ∃ out, s.EncodeThreadProof = some out ∧
      out.length = THREAD_WITNESS_SIZE ∧
      out.take 322 = serializeThread t ∧
      out.drop 322 = calculateThreadStackRoot ((s.getActiveThreadStack).dropLast) := by
  have hlen : (serializeThread t).length = 322 := serializeThread_length t hwf.1
  refine ⟨serializeThread t ++ calculateThreadStackRoot ((s.getActiveThreadStack).dropLast),
    ?_, ?_, List.take_left' hlen, List.drop_left' hlen⟩
  · unfold State.EncodeThreadProof
    rw [htop]
  · rw [List.length_append, hlen, calculateThreadStackRoot_length]
    rfl

/-- Concrete one-thread state used to witness the thread-proof result. -/
def exStateOneThread : State :=
  { exState with leftThreadStack := [exThread] }

/-- Witness for C5 at a concrete one-thread state. -/
theorem encodeThreadProof_spec_witness :
    (exStateOneThread.getActiveThreadStack).getLast? = some exThread ∧
    WFThread exThread ∧
    ∃ out, exStateOneThread.EncodeThreadProof = some out ∧
      out.length = THREAD_WITNESS_SIZE ∧
      out.take 322 = serializeThread exThread ∧
      out.drop 322 =
        calculateThreadStackRoot ((exStateOneThread.getActiveThreadStack).dropLast) :=
  ⟨rfl, by decide, encodeThreadProof_spec exStateOneThread exThread rfl (by decide)⟩

/-- C10: the operations that read the current thread at the public
interface are total exactly on states whose active thread stack is
non-empty; on an empty active stack each of GetPC, GetRegisters and
EncodeThreadProof is none, the model of the Go panic. -/
theorem currentThread_accessors_total_iff (s : State) :
    (s.GetPC.isSome ↔ s.getActiveThreadStack ≠ []) ∧
    (s.GetRegisters.isSome ↔ s.getActiveThreadStack ≠ []) ∧
    (s.EncodeThreadProof.isSome ↔ s.getActiveThreadStack ≠ []) := by
  have hbase : (s.getActiveThreadStack).getLast?.isSome ↔ s.getActiveThreadStack ≠ [] :=
    getLast?_isSome_iff _
  refine ⟨?_, ?_, ?_⟩
  · rw [← hbase]
    simp [State.GetPC, State.getCurrentThread]
  · rw [← hbase]
    simp [State.GetRegisters, State.getCurrentThread]
  · rw [← hbase]
    unfold State.EncodeThreadProof
    cases hcase : (s.getActiveThreadStack).getLast? <;> simp [hcase]

/-- C6: for an offset within the prefixed stream, ReadPreimage returns up
to 32 bytes of the length-prefixed stream starting at the offset, with
count min 32 (8 + data length - offset), caches the (key, full prefixed
stream) pair, and queries the underlying oracle exactly when the key
differs from the cached key. -/
theorem readPreimage_spec (oracle : List Nat → List Nat) (p : TrackingPreimageOracleReader)
    (key : List Nat) (offset : Nat)
    (hcache : key = p.lastPreimageKey → p.lastPreimage = lengthPrefixed (oracle key))
    (hoff : offset ≤ 8 + (oracle key).length) :
    ReadPreimage oracle p key offset =
      some ((((lengthPrefixed (oracle key)).drop offset).take 32) ++
          List.replicate (32 - min 32 (8 + (oracle key).length - offset)) 0,
        min 32 (8 + (oracle key).length - offset),
        ⟨lengthPrefixed (oracle key), key, offset⟩,
        decide (key ≠ p.lastPreimageKey)) := by
  have hpre : (if key = p.lastPreimageKey then p.lastPreimage
      else lengthPrefixed (oracle key)) = lengthPrefixed (oracle key) := by
    by_cases hk : key = p.lastPreimageKey
    · rw [if_pos hk, hcache hk]
    · rw [if_neg hk]
  have hchunklen : ((((lengthPrefixed (oracle key)).drop offset).take 32)).length
      = min 32 (8 + (oracle key).length - offset) := by
    simp [List.length_take, List.length_drop, lengthPrefixed_length]
  simp only [ReadPreimage, hpre]
  rw [if_pos (by rw [lengthPrefixed_length]; exact hoff), hchunklen]

/-- Concrete oracle, cache, and key used to witness the reader results. -/
def exOracle : List Nat → List Nat := fun _ => [1, 2, 3]

/-- Concrete reader cache whose key differs from the requested key. -/
def exReader : TrackingPreimageOracleReader :=
  { lastPreimage := []
    lastPreimageKey := List.replicate 32 0
    lastPreimageOffset := 0 }

/-- Concrete requested key. -/
def exKey : List Nat := List.replicate 32 1

/-- Witness for C6 at a concrete oracle, cache, key and offset. -/
theorem readPreimage_spec_witness :
    (exKey = exReader.lastPreimageKey →
      exReader.lastPreimage = lengthPrefixed (exOracle exKey)) ∧
    (0 ≤ 8 + (exOracle exKey).length) ∧
    ReadPreimage exOracle exReader exKey 0 =
      some ((((lengthPrefixed (exOracle exKey)).drop 0).take 32) ++
          List.replicate (32 - min 32 (8 + (exOracle exKey).length - 0)) 0,
        min 32 (8 + (exOracle exKey).length - 0),
        ⟨lengthPrefixed (exOracle exKey), exKey, 0⟩,
        decide (exKey ≠ exReader.lastPreimageKey)) :=
  ⟨by decide, by decide, readPreimage_spec exOracle exReader exKey 0 (by decide) (by decide)⟩

/-- C9: ReadPreimage is not total in the offset: with a coherent cache it
returns a value exactly when the offset does not exceed the length of
the prefixed stream, 8 plus the length of the oracle data; past that the
Go slice expression panics, modelled as none. -/
theorem readPreimage_total_iff (oracle : List Nat → List Nat)
    (p : TrackingPreimageOracleReader) (key : List Nat) (offset : Nat)
    (hcache : key = p.lastPreimageKey → p.lastPreimage = lengthPrefixed (oracle key)) :
    (ReadPreimage oracle p key offset).isSome ↔ offset ≤ 8 + (oracle key).length := by
  have hpre : (if key = p.lastPreimageKey then p.lastPreimage
      else lengthPrefixed (oracle key)) = lengthPrefixed (oracle key) := by
    by_cases hk : key = p.lastPreimageKey
    · rw [if_pos hk, hcache hk]
    · rw [if_neg hk]
  simp only [ReadPreimage, hpre, lengthPrefixed_length]
  by_cases hof : offset ≤ 8 + (oracle key).length
  · rw [if_pos hof]
    simp [hof]
  · rw [if_neg hof]
    simp [hof]

/-- Witness for C9 at a concrete oracle, cache, key and offset. -/
theorem readPreimage_total_iff_witness :
    (exKey = exReader.lastPreimageKey →
      exReader.lastPreimage = lengthPrefixed (exOracle exKey)) ∧
    ((ReadPreimage exOracle exReader exKey 50).isSome ↔
      50 ≤ 8 + (exOracle exKey).length) :=
  ⟨by decide, readPreimage_total_iff exOracle exReader exKey 50 (by decide)⟩

/-- C8: StateWitness.StateHash fails exactly on witnesses whose length is
not 179; on a 179-byte witness it returns, without error, keccak256 of
the witness with byte 0 replaced by the status derived from byte 80
(exit code) and byte 81 (exited). -/
theorem stateWitness_stateHash_spec (sw : StateWitness) :
    ((∃ e, StateWitness.StateHash sw = .error e) ↔ sw.length ≠ 179) ∧
    (sw.length = 179 →
      StateWitness.StateHash sw =
        .ok ((keccak256 sw).set 0 (VmStatus (sw.getD 81 0 == 1) (sw.getD 80 0)))) := by
  constructor
  · constructor
    · rintro ⟨e, he⟩ hlen
      unfold StateWitness.StateHash stateHashFromWitness at he
      simp only [STATE_WITNESS_SIZE] at he
      rw [if_pos hlen] at he
      simp at he
    · intro hlen
      refine ⟨.mismatch sw.length STATE_WITNESS_SIZE, ?_⟩
      unfold StateWitness.StateHash stateHashFromWitness
      simp only [STATE_WITNESS_SIZE]
      rw [if_neg hlen]
  · intro hlen
    unfold StateWitness.StateHash stateHashFromWitness
    simp only [STATE_WITNESS_SIZE, EXITED_WITNESS_OFFSET, EXITCODE_WITNESS_OFFSET]
    rw [if_pos hlen]

/-- Concrete 179-byte witness used to witness the state-hash result. -/
def exWitnessBytes : StateWitness := List.replicate 179 0

/-- Witness for C8 at a concrete 179-byte witness. -/
theorem stateWitness_stateHash_spec_witness :
    StateWitness.StateHash exWitnessBytes =
      .ok ((keccak256 exWitnessBytes).set 0
        (VmStatus ((exWitnessBytes.getD 81 0) == 1) (exWitnessBytes.getD 80 0))) :=
  (stateWitness_stateHash_spec exWitnessBytes).2 (by decide)

/-- Segment skipped by the loader: the MIPS_ABIFLAGS type. -/
def segSkipped (p : ProgSegment) : Prop := p.ptype = MIPS_ABIFLAGS

instance (p : ProgSegment) : Decidable (segSkipped p) := by
  unfold segSkipped
  infer_instance

/-- File-size condition under which the loader accepts a segment. -/
def segFileSizeOk (p : ProgSegment) : Prop :=
  p.filesz = p.memsz ∨ (p.ptype = PT_LOAD ∧ p.filesz < p.memsz)

instance (p : ProgSegment) : Decidable (segFileSizeOk p) := by
  unfold segFileSizeOk
  infer_instance

/-- Heap condition the loader actually enforces: the 64-bit end bound
vaddr + memsz is strictly below HEAP_START. -/
def segBelowHeapCheck (p : ProgSegment) : Prop :=
  (p.vaddr + p.memsz) % 2 ^ 64 < HEAP_START

instance (p : ProgSegment) : Decidable (segBelowHeapCheck p) := by
  unfold segBelowHeapCheck
  infer_instance

/-- A segment the loader accepts: skipped, or sized and placed correctly. -/
def segOk (p : ProgSegment) : Prop :=
  segSkipped p ∨ (segFileSizeOk p ∧ segBelowHeapCheck p)

instance (p : ProgSegment) : Decidable (segOk p) := by
  unfold segOk
  infer_instance

/-- The segment loop succeeds exactly when every segment is acceptable. -/
theorem loadSegments_ok_iff (i : Nat) (segs : List ProgSegment) :
    (∃ loads, loadSegments HEAP_START i segs = .ok loads) ↔ ∀ p ∈ segs, segOk p := by
  induction segs generalizing i with
  | nil => simp [loadSegments]
  | cons p rest ih =>
    simp only [loadSegments]
    by_cases h1 : p.ptype = MIPS_ABIFLAGS
    · rw [if_pos h1, ih (i + 1)]
      constructor
      · intro hrest q hq
        rcases List.mem_cons.mp hq with rfl | hq
        · exact Or.inl h1
        · exact hrest q hq
      · intro hall q hq
        exact hall q (List.mem_cons_of_mem _ hq)
    · rw [if_neg h1]
      by_cases h2 : p.filesz ≠ p.memsz ∧ ¬(p.ptype = PT_LOAD ∧ p.filesz < p.memsz)
      · rw [if_pos h2]
        have hpnot : ¬segOk p := by
          rintro (hskip | ⟨hfs, hbh⟩)
          · exact h1 hskip
          · rcases hfs with heq | hlt
            · exact h2.1 heq
            · exact h2.2 hlt
        constructor
        · rintro ⟨loads, hl⟩
          split at hl <;> simp at hl
        · intro hall
          exact (hpnot (hall p (List.mem_cons_self p rest))).elim
      · rw [if_neg h2]
        by_cases h3 : HEAP_START ≤ (p.vaddr + p.memsz) % 2 ^ 64
        · rw [if_pos h3]
          have hpnot : ¬segOk p := by
            rintro (hskip | ⟨hfs, hbh⟩)
            · exact h1 hskip
            · exact absurd h3 (not_le.mpr hbh)
          constructor
          · rintro ⟨loads, hl⟩
            simp at hl
          · intro hall
            exact (hpnot (hall p (List.mem_cons_self p rest))).elim
        · rw [if_neg h3]
          have h2' := h2
          push_neg at h2'
          have hpok : segOk p := by
            right
            refine ⟨?_, not_le.mp h3⟩
            by_cases hfs : p.filesz = p.memsz
            · exact Or.inl hfs
            · exact Or.inr (h2' hfs)
          constructor
          · rintro ⟨loads, hl⟩ q hq
            rcases List.mem_cons.mp hq with rfl | hq
            · exact hpok
            · rcases hrec : loadSegments HEAP_START (i + 1) rest with e | ls
              · rw [hrec] at hl
                simp at hl
              · exact ((ih (i + 1)).mp ⟨ls, hrec⟩) q hq
          · intro hall
            rcases (ih (i + 1)).mpr
              (fun q hq => hall q (List.mem_cons_of_mem _ hq)) with ⟨ls, hls⟩
            exact ⟨(p.vaddr, segLoadBytes p) :: ls, by rw [hls]⟩

/-- On acceptable segments the loop returns exactly the non-skipped
segments, in order, each mapped to its write address and load bytes. -/
theorem loadSegments_ok_val (i : Nat) (segs : List ProgSegment)
    (hall : ∀ p ∈ segs, segOk p) :
    loadSegments HEAP_START i segs =
      .ok ((segs.filter fun p => p.ptype != MIPS_ABIFLAGS).map
        fun p => (p.vaddr, segLoadBytes p)) := by
  induction segs generalizing i with
  | nil => simp [loadSegments]
  | cons p rest ih =>
    have hrest : ∀ q ∈ rest, segOk q := fun q hq => hall q (List.mem_cons_of_mem _ hq)
    have hp : segOk p := hall p (List.mem_cons_self p rest)
    simp only [loadSegments]
    by_cases h1 : p.ptype = MIPS_ABIFLAGS
    · rw [if_pos h1, ih (i + 1) hrest]
      simp [List.filter_cons, h1]
    · have hpok : segFileSizeOk p ∧ segBelowHeapCheck p := by
        rcases hp with hskip | hok
        · exact absurd hskip h1
        · exact hok
      have h2 : ¬(p.filesz ≠ p.memsz ∧ ¬(p.ptype = PT_LOAD ∧ p.filesz < p.memsz)) := by
        rcases hpok.1 with heq | hlt
        · rintro ⟨hne, -⟩
          exact hne heq
        · rintro ⟨-, hnot⟩
          exact hnot hlt
      rw [if_neg h1, if_neg h2, if_neg (not_le.mpr hpok.2), ih (i + 1) hrest]
      simp [List.filter_cons, h1]

/-- Boundary segment: PT_LOAD, matched sizes, occupying the 0x1000 bytes
immediately below HEAP_START, so it lies entirely below the heap. -/
def exBoundarySeg : ProgSegment :=
  { ptype := 1
    vaddr := HEAP_START - 0x1000
    filesz := 0x1000
    memsz := 0x1000
    data := [] }

/-- C7 counterexample: a segment lying entirely below HEAP_START (its end
bound equals HEAP_START, so its last occupied byte is HEAP_START - 1) is
nevertheless rejected by the heap-overlap check, because the loader
rejects whenever vaddr + memsz is greater than or equal to HEAP_START. -/
theorem loadELF_heapBoundary_counterexample :
    exBoundarySeg.vaddr + exBoundarySeg.memsz ≤ HEAP_START ∧
    LoadELF [exBoundarySeg] = .error (.segmentOverlapsHeap 0) := by
  constructor
  · decide
  · rfl

/-- C7 amended: LoadELF skips MIPS_ABIFLAGS segments and fails exactly
when a non-skipped segment has filesz > memsz (or any filesz different
from memsz for a non-PT_LOAD segment) or has vaddr + memsz at or above
HEAP_START mod 2^64; segments with vaddr + memsz strictly below
HEAP_START pass the heap check, and every loaded PT_LOAD segment with
filesz < memsz is zero padded by memsz - filesz bytes. -/
theorem loadELF_spec_amended (segs : List ProgSegment) :
    ((∃ loads, LoadELF segs = .ok loads) ↔ ∀ p ∈ segs, segOk p) ∧
    ((∀ p ∈ segs, segOk p) →
      LoadELF segs = .ok ((segs.filter fun p => p.ptype != MIPS_ABIFLAGS).map
        fun p => (p.vaddr, segLoadBytes p))) ∧
    (∀ p ∈ segs, p.ptype = PT_LOAD → p.filesz < p.memsz → p.data.length = p.filesz →
      segLoadBytes p = p.data ++ List.replicate (p.memsz - p.filesz) 0) := by
  refine ⟨loadSegments_ok_iff 0 segs, loadSegments_ok_val 0 segs, ?_⟩
  intro p hp hpt hlt hdl
  unfold segLoadBytes
  rw [if_pos ⟨hpt, hlt⟩, ← hdl, List.take_length]

/-- Ordinary small segment accepted by the loader. -/
def exGoodSeg : ProgSegment :=
  { ptype := 1
    vaddr := 0x1000
    filesz := 2
    memsz := 4
    data := [7, 8] }

/-- Witness for the amended C7 at a concrete one-segment program. -/
theorem loadELF_spec_amended_witness :
    (∀ p ∈ [exGoodSeg], segOk p) ∧
    LoadELF [exGoodSeg] = .ok (([exGoodSeg].filter fun p => p.ptype != MIPS_ABIFLAGS).map
      fun p => (p.vaddr, segLoadBytes p)) :=
  ⟨by decide, (loadELF_spec_amended [exGoodSeg]).2.1 (by decide)⟩
